import Mathlib

/-!
Verification development for the CBXShell archive/thumbnail core.

The definitions below are a shallow embedding of the Rust sources under
`src/CBXShell/src/`: byte buffers become `List Nat` (each element a byte
value), Rust `Result<T, CbxError>` becomes `Except CbxError T`, and the
COM `IStream` becomes an explicit state-passing model.  Each definition's
doc comment names the Rust item it embeds.
-/

namespace CBX

/-- Embeds `enum ArchiveType` from `src/archive/mod.rs`. -/
inductive ArchiveType where
  | Zip
  | Rar
  | SevenZip
deriving DecidableEq, Repr

/-- Embeds the constructors of `CbxError` (from `src/utils/error.rs`, whose
uses are visible in the sources under `src/`): `Archive(String)`,
`Image(String)`, `UnsupportedFormat(String)` and `InvalidPath`.  Only the
constructors exercised by the embedded code are modelled. -/
inductive CbxError where
  | Archive (msg : String)
  | Image (msg : String)
  | UnsupportedFormat (msg : String)
  | InvalidPath
deriving DecidableEq, Repr

instance {ε α : Type} [DecidableEq ε] [DecidableEq α] : DecidableEq (Except ε α) := fun
  | .ok a, .ok b =>
    if h : a = b then .isTrue (by rw [h])
    else .isFalse (fun hc => h (Except.ok.inj hc))
  | .ok _, .error _ => .isFalse (fun hc => Except.noConfusion hc)
  | .error _, .ok _ => .isFalse (fun hc => Except.noConfusion hc)
  | .error e, .error f =>
    if h : e = f then .isTrue (by rw [h])
    else .isFalse (fun hc => h (Except.error.inj hc))

/-- Embeds `detect_archive_type_from_bytes` from
`src/archive/stream_reader.rs` (lines 256-309).  Byte-slice comparisons
`&data[0..k] == magic` become `data.take k = magic`; the inner
`data.len() >= k` guards of the source are kept verbatim. -/
def detect_archive_type_from_bytes (data : List Nat) : Except CbxError ArchiveType :=
  if data.length < 8 then
    .error (.UnsupportedFormat "Data too short")
  else if 4 ≤ data.length ∧
      (data.take 4 = [0x50, 0x4B, 0x03, 0x04] ∨
       data.take 4 = [0x50, 0x4B, 0x05, 0x06] ∨
       data.take 4 = [0x50, 0x4B, 0x07, 0x08]) then
    .ok .Zip
  else if 6 ≤ data.length ∧ data.take 6 = [0x37, 0x7A, 0xBC, 0xAF, 0x27, 0x1C] then
    .ok .SevenZip
  else if 7 ≤ data.length ∧ data.take 7 = [0x52, 0x61, 0x72, 0x21, 0x1A, 0x07, 0x00] then
    .ok .Rar
  else if 8 ≤ data.length ∧ data.take 8 = [0x52, 0x61, 0x72, 0x21, 0x1A, 0x07, 0x01, 0x00] then
    .ok .Rar
  else
    .error (.UnsupportedFormat "Unrecognized archive format")

/-- With at least 8 bytes of input the redundant inner length guards of
`detect_archive_type_from_bytes` drop away, leaving the pure signature
dispatch. -/
theorem detect_archive_unfold (data : List Nat) (h : 8 ≤ data.length) :
    detect_archive_type_from_bytes data =
      (if data.take 4 = [0x50, 0x4B, 0x03, 0x04] ∨
          data.take 4 = [0x50, 0x4B, 0x05, 0x06] ∨
          data.take 4 = [0x50, 0x4B, 0x07, 0x08] then
        .ok .Zip
      else if data.take 6 = [0x37, 0x7A, 0xBC, 0xAF, 0x27, 0x1C] then
        .ok .SevenZip
      else if data.take 7 = [0x52, 0x61, 0x72, 0x21, 0x1A, 0x07, 0x00] then
        .ok .Rar
      else if data.take 8 = [0x52, 0x61, 0x72, 0x21, 0x1A, 0x07, 0x01, 0x00] then
        .ok .Rar
      else
        .error (.UnsupportedFormat "Unrecognized archive format")) := by
  have h4 : 4 ≤ data.length := by omega
  have h6 : 6 ≤ data.length := by omega
  have h7 : 7 ≤ data.length := by omega
  have hn : ¬ data.length < 8 := by omega
  simp only [detect_archive_type_from_bytes, hn, if_false, h4, h6, h7, h, true_and]

/-- A prefix of the first 8 bytes is determined by the first 8 bytes. -/
theorem take_of_take8 (data : List Nat) (k : Nat) (hk : k ≤ 8) :
    data.take k = (data.take 8).take k := by
  rw [List.take_take, Nat.min_eq_left hk]

/-- A shorter prefix of a known prefix is the corresponding literal prefix. -/
theorem take_of_sig {data sig : List Nat} (k m : Nat) (hk : k ≤ m)
    (h : data.take m = sig) : data.take k = sig.take k := by
  rw [← h, List.take_take, Nat.min_eq_left hk]

/-- C2: for every byte buffer of length at least 8, archive classification
returns exactly `Zip` on the three ZIP signatures, exactly `SevenZip` on the
6-byte 7z magic, exactly `Rar` on the RAR4 (7-byte) and RAR5 (8-byte)
signatures — matching each signature over its entire length, in the priority
order ZIP, 7z, RAR4, RAR5 with first match winning — and an error (never a
guessed type) when none of these signatures matches. -/
theorem archive_classification_signatures (data : List Nat) (h : 8 ≤ data.length) :
    ((data.take 4 = [0x50, 0x4B, 0x03, 0x04] ∨
      data.take 4 = [0x50, 0x4B, 0x05, 0x06] ∨
      data.take 4 = [0x50, 0x4B, 0x07, 0x08]) →
        detect_archive_type_from_bytes data = .ok .Zip) ∧
    (data.take 6 = [0x37, 0x7A, 0xBC, 0xAF, 0x27, 0x1C] →
        detect_archive_type_from_bytes data = .ok .SevenZip) ∧
    (data.take 7 = [0x52, 0x61, 0x72, 0x21, 0x1A, 0x07, 0x00] →
        detect_archive_type_from_bytes data = .ok .Rar) ∧
    (data.take 8 = [0x52, 0x61, 0x72, 0x21, 0x1A, 0x07, 0x01, 0x00] →
        detect_archive_type_from_bytes data = .ok .Rar) ∧
    (¬ (data.take 4 = [0x50, 0x4B, 0x03, 0x04] ∨
        data.take 4 = [0x50, 0x4B, 0x05, 0x06] ∨
        data.take 4 = [0x50, 0x4B, 0x07, 0x08]) →
     data.take 6 ≠ [0x37, 0x7A, 0xBC, 0xAF, 0x27, 0x1C] →
     data.take 7 ≠ [0x52, 0x61, 0x72, 0x21, 0x1A, 0x07, 0x00] →
     data.take 8 ≠ [0x52, 0x61, 0x72, 0x21, 0x1A, 0x07, 0x01, 0x00] →
        detect_archive_type_from_bytes data =
          .error (.UnsupportedFormat "Unrecognized archive format")) := by
  rw [detect_archive_unfold data h]
  refine ⟨fun hz => ?_, fun hs => ?_, fun hr4 => ?_, fun hr5 => ?_,
    fun hnz hns hnr4 hnr5 => ?_⟩
  · rw [if_pos hz]
  · have e4 := take_of_sig 4 6 (by norm_num) hs
    rw [if_neg (by rintro (h' | h' | h') <;> rw [e4] at h' <;> exact absurd h' (by decide)),
      if_pos hs]
  · have e4 := take_of_sig 4 7 (by norm_num) hr4
    have e6 := take_of_sig 6 7 (by norm_num) hr4
    rw [if_neg (by rintro (h' | h' | h') <;> rw [e4] at h' <;> exact absurd h' (by decide)),
      if_neg (by rw [e6]; decide), if_pos hr4]
  · have e4 := take_of_sig 4 8 (by norm_num) hr5
    have e6 := take_of_sig 6 8 (by norm_num) hr5
    have e7 := take_of_sig 7 8 (by norm_num) hr5
    rw [if_neg (by rintro (h' | h' | h') <;> rw [e4] at h' <;> exact absurd h' (by decide)),
      if_neg (by rw [e6]; decide), if_neg (by rw [e7]; decide), if_pos hr5]
  · rw [if_neg hnz, if_neg hns, if_neg hnr4, if_neg hnr5]

/-- C2 witness: the concrete 7z fixture `37 7A BC AF 27 1C 00 00` classifies
as `SevenZip` via the general theorem. -/
theorem archive_classification_signatures_witness :
    detect_archive_type_from_bytes [0x37, 0x7A, 0xBC, 0xAF, 0x27, 0x1C, 0x00, 0x00] =
      .ok .SevenZip :=
  (archive_classification_signatures
    [0x37, 0x7A, 0xBC, 0xAF, 0x27, 0x1C, 0x00, 0x00] (by decide)).2.1 (by decide)

/-- C5: a buffer shorter than 8 bytes always fails with the "Data too short"
condition — never any `ArchiveType`, even for a prefix of a valid signature. -/
theorem archive_classification_too_short (data : List Nat) (h : data.length < 8) :
    detect_archive_type_from_bytes data = .error (.UnsupportedFormat "Data too short") ∧
    ∀ t : ArchiveType, detect_archive_type_from_bytes data ≠ .ok t := by
  refine ⟨?_, ?_⟩
  · simp only [detect_archive_type_from_bytes, if_pos h]
  · intro t
    simp only [detect_archive_type_from_bytes, if_pos h]
    exact fun hc => Except.noConfusion hc

/-- C5 witness: the two-byte buffer `PK` (a prefix of a valid ZIP signature)
is rejected as too short. -/
theorem archive_classification_too_short_witness :
    detect_archive_type_from_bytes [0x50, 0x4B] =
      .error (.UnsupportedFormat "Data too short") ∧
    ∀ t : ArchiveType, detect_archive_type_from_bytes [0x50, 0x4B] ≠ .ok t :=
  archive_classification_too_short [0x50, 0x4B] (by decide)

/-- C10: archive classification is a function of the first 8 bytes only: two
buffers of length at least 8 with equal 8-byte prefixes classify
identically, regardless of trailing bytes. -/
theorem archive_classification_prefix_determined (d₁ d₂ : List Nat)
    (h₁ : 8 ≤ d₁.length) (h₂ : 8 ≤ d₂.length) (hp : d₁.take 8 = d₂.take 8) :
    detect_archive_type_from_bytes d₁ = detect_archive_type_from_bytes d₂ := by
  have e4 : d₁.take 4 = d₂.take 4 := by
    rw [take_of_take8 d₁ 4 (by norm_num), take_of_take8 d₂ 4 (by norm_num), hp]
  have e6 : d₁.take 6 = d₂.take 6 := by
    rw [take_of_take8 d₁ 6 (by norm_num), take_of_take8 d₂ 6 (by norm_num), hp]
  have e7 : d₁.take 7 = d₂.take 7 := by
    rw [take_of_take8 d₁ 7 (by norm_num), take_of_take8 d₂ 7 (by norm_num), hp]
  rw [detect_archive_unfold d₁ h₁, detect_archive_unfold d₂ h₂, e4, e6, e7, hp]

/-- C10 witness: a ZIP header followed by different trailing bytes classifies
the same both times. -/
theorem archive_classification_prefix_determined_witness :
    detect_archive_type_from_bytes [0x50, 0x4B, 0x03, 0x04, 0, 0, 0, 0, 1, 2, 3] =
      detect_archive_type_from_bytes [0x50, 0x4B, 0x03, 0x04, 0, 0, 0, 0, 9] :=
  archive_classification_prefix_determined
    [0x50, 0x4B, 0x03, 0x04, 0, 0, 0, 0, 1, 2, 3]
    [0x50, 0x4B, 0x03, 0x04, 0, 0, 0, 0, 9]
    (by decide) (by decide) (by decide)

/-! ### Image format sniffing (`src/image_processor/magic.rs`) -/

/-- Embeds `enum ImageFormat` from `src/image_processor/magic.rs`. -/
inductive ImageFormat where
  | Jpeg
  | Png
  | Gif
  | Bmp
  | Tiff
  | Ico
  | WebP
  | Avif
deriving DecidableEq, Repr

/-- Byte sub-slice `data[off..off+n]` of the Rust source. -/
def listSub (data : List Nat) (off n : Nat) : List Nat :=
  (data.drop off).take n

/-- Message built by `format!("Insufficient data for format detection (need {} bytes, got {})", MIN_BYTES, data.len())` with `MIN_BYTES = 4`. -/
def insufficient_data_msg (n : Nat) : String :=
  "Insufficient data for format detection (need 4 bytes, got " ++ toString n ++ ")"

/-- Uppercase hexadecimal digit, as in Rust `{:02X}` formatting. -/
def hex_digit (n : Nat) : Char :=
  if n < 10 then Char.ofNat (48 + n) else Char.ofNat (55 + n)

/-- Two-digit uppercase hexadecimal rendering of one byte (`{:02X}`). -/
def hex_byte (n : Nat) : String :=
  ⟨[hex_digit (n / 16), hex_digit (n % 16)]⟩

/-- Rust debug rendering `{:02X?}` of `&data[..data.len().min(16)]`. -/
def hex_preview (data : List Nat) : String :=
  "[" ++ String.intercalate ", " ((data.take 16).map hex_byte) ++ "]"

/-- Message built by `format!("Unrecognized image format (first 16 bytes: {:02X?})", ...)`. -/
def unrecognized_image_msg (data : List Nat) : String :=
  "Unrecognized image format (first 16 bytes: " ++ hex_preview data ++ ")"

/-- The JPEG test of `detect_image_format`: `data.len() >= 3 && data[0] == 0xFF && data[1] == 0xD8 && data[2] == 0xFF`. -/
def jpeg_sig (data : List Nat) : Prop :=
  3 ≤ data.length ∧ data.getD 0 0 = 0xFF ∧ data.getD 1 0 = 0xD8 ∧ data.getD 2 0 = 0xFF

/-- The 8-byte PNG signature test of `detect_image_format`. -/
def png_sig (data : List Nat) : Prop :=
  8 ≤ data.length ∧ data.getD 0 0 = 0x89 ∧ data.getD 1 0 = 0x50 ∧
    data.getD 2 0 = 0x4E ∧ data.getD 3 0 = 0x47 ∧ data.getD 4 0 = 0x0D ∧
    data.getD 5 0 = 0x0A ∧ data.getD 6 0 = 0x1A ∧ data.getD 7 0 = 0x0A

/-- The `GIF8` prefix test of `detect_image_format`. -/
def gif_sig (data : List Nat) : Prop :=
  4 ≤ data.length ∧ data.getD 0 0 = 0x47 ∧ data.getD 1 0 = 0x49 ∧
    data.getD 2 0 = 0x46 ∧ data.getD 3 0 = 0x38

/-- The `BM` prefix test of `detect_image_format`. -/
def bmp_sig (data : List Nat) : Prop :=
  2 ≤ data.length ∧ data.getD 0 0 = 0x42 ∧ data.getD 1 0 = 0x4D

/-- The TIFF test of `detect_image_format` (little or big endian). -/
def tiff_sig (data : List Nat) : Prop :=
  4 ≤ data.length ∧
    ((data.getD 0 0 = 0x49 ∧ data.getD 1 0 = 0x49 ∧
      data.getD 2 0 = 0x2A ∧ data.getD 3 0 = 0x00) ∨
     (data.getD 0 0 = 0x4D ∧ data.getD 1 0 = 0x4D ∧
      data.getD 2 0 = 0x00 ∧ data.getD 3 0 = 0x2A))

/-- The ICO test of `detect_image_format`. -/
def ico_sig (data : List Nat) : Prop :=
  4 ≤ data.length ∧ data.getD 0 0 = 0x00 ∧ data.getD 1 0 = 0x00 ∧
    data.getD 2 0 = 0x01 ∧ data.getD 3 0 = 0x00

/-- The RIFF/WEBP test of `detect_image_format` (12 bytes, size field arbitrary). -/
def webp_sig (data : List Nat) : Prop :=
  12 ≤ data.length ∧ data.getD 0 0 = 0x52 ∧ data.getD 1 0 = 0x49 ∧
    data.getD 2 0 = 0x46 ∧ data.getD 3 0 = 0x46 ∧ data.getD 8 0 = 0x57 ∧
    data.getD 9 0 = 0x45 ∧ data.getD 10 0 = 0x42 ∧ data.getD 11 0 = 0x50

instance (data : List Nat) : Decidable (jpeg_sig data) := by
  unfold jpeg_sig; infer_instance

instance (data : List Nat) : Decidable (png_sig data) := by
  unfold png_sig; infer_instance

instance (data : List Nat) : Decidable (gif_sig data) := by
  unfold gif_sig; infer_instance

instance (data : List Nat) : Decidable (bmp_sig data) := by
  unfold bmp_sig; infer_instance

instance (data : List Nat) : Decidable (tiff_sig data) := by
  unfold tiff_sig; infer_instance

instance (data : List Nat) : Decidable (ico_sig data) := by
  unfold ico_sig; infer_instance

instance (data : List Nat) : Decidable (webp_sig data) := by
  unfold webp_sig; infer_instance

/-- One iteration of the `ftyp`-box loop of `detect_image_format`:
`offset + 12 <= data.len()` and `data[offset..offset+4] == b"ftyp"` and the
brand slice is `avif` or `avis`. -/
def avif_box_at (data : List Nat) (off : Nat) : Prop :=
  off + 12 ≤ data.length ∧ listSub data off 4 = [0x66, 0x74, 0x79, 0x70] ∧
    (listSub data (off + 4) 4 = [0x61, 0x76, 0x69, 0x66] ∨
     listSub data (off + 4) 4 = [0x61, 0x76, 0x69, 0x73])

/-- The AVIF test of `detect_image_format`: the whole block is guarded by
`data.len() >= 12`; the box loop visits offsets `[4, 8, 0]`; the raw
substring fallback runs only when `data.len() >= 32` and scans start
offsets `0..=data.len()-8`, breaking at 32.  (The source returns `Avif`
from inside two separate loops; folding both early returns into one
disjunction is value-identical.) -/
def avif_sig (data : List Nat) : Prop :=
  12 ≤ data.length ∧
    ((avif_box_at data 4 ∨ avif_box_at data 8 ∨ avif_box_at data 0) ∨
     (32 ≤ data.length ∧
      ∃ i, i ≤ data.length - 8 ∧ i < 32 ∧
        listSub data i 8 = [0x66, 0x74, 0x79, 0x70, 0x61, 0x76, 0x69, 0x66]))

instance (data : List Nat) : Decidable (avif_sig data) := by
  unfold avif_sig avif_box_at
  have : ∀ P : Nat → Prop, (∀ i, Decidable (P i)) →
      Decidable (∃ i, i ≤ data.length - 8 ∧ i < 32 ∧ P i) := by
    intro P hP
    have e : (∃ i, i ≤ data.length - 8 ∧ i < 32 ∧ P i) ↔
        (∃ i < 32, i ≤ data.length - 8 ∧ P i) := by
      constructor
      · rintro ⟨i, h1, h2, h3⟩; exact ⟨i, h2, h1, h3⟩
      · rintro ⟨i, h2, h1, h3⟩; exact ⟨i, h1, h2, h3⟩
    exact decidable_of_iff _ e.symm
  have := this (fun i => listSub data i 8 = [0x66, 0x74, 0x79, 0x70, 0x61, 0x76, 0x69, 0x66])
    (fun i => by infer_instance)
  exact inferInstance

/-- Embeds `detect_image_format` from `src/image_processor/magic.rs`
(lines 89-215).  Rust indexing `data[i]` (always length-guarded in the
source) becomes `data.getD i 0`; each early `return` becomes one branch of
the if-chain, in source order. -/
def detect_image_format (data : List Nat) : Except CbxError ImageFormat :=
  if data.length = 0 then .error (.Image "Empty data")
  else if data.length < 4 then .error (.Image (insufficient_data_msg data.length))
  else if jpeg_sig data then .ok .Jpeg
  else if png_sig data then .ok .Png
  else if gif_sig data then .ok .Gif
  else if bmp_sig data then .ok .Bmp
  else if tiff_sig data then .ok .Tiff
  else if ico_sig data then .ok .Ico
  else if webp_sig data then .ok .WebP
  else if avif_sig data then .ok .Avif
  else .error (.Image (unrecognized_image_msg data))

/-- The AVIF acceptance condition in the claim's words (a second definition,
written from the spec for comparison with the source-derived `avif_sig`): an
`ftyp` box with brand `avif` or `avis` at one of the candidate offsets
{0, 4, 8}, or the 8-byte substring `ftypavif` starting anywhere within the
first 32 bytes. -/
def claim_avif_condition (data : List Nat) : Prop :=
  (∃ off ∈ ([0, 4, 8] : List Nat),
    listSub data off 4 = [0x66, 0x74, 0x79, 0x70] ∧
      (listSub data (off + 4) 4 = [0x61, 0x76, 0x69, 0x66] ∨
       listSub data (off + 4) 4 = [0x61, 0x76, 0x69, 0x73])) ∨
  (∃ i < 32, listSub data i 8 = [0x66, 0x74, 0x79, 0x70, 0x61, 0x76, 0x69, 0x66])

/-- C6 counterexample: the 8-byte buffer `ftypavif` satisfies the claim's
AVIF condition (an `ftyp` box with brand `avif` at offset 0, and the raw
substring within the first 32 bytes) and matches no earlier signature, yet
the code classifies it as unrecognized, because the source's box check
requires `offset + 12 <= data.len()` and its substring fallback requires
`data.len() >= 32`. -/
theorem image_format_avif_counterexample :
    4 ≤ ([0x66, 0x74, 0x79, 0x70, 0x61, 0x76, 0x69, 0x66] : List Nat).length ∧
    claim_avif_condition [0x66, 0x74, 0x79, 0x70, 0x61, 0x76, 0x69, 0x66] ∧
    detect_image_format [0x66, 0x74, 0x79, 0x70, 0x61, 0x76, 0x69, 0x66] ≠ .ok .Avif ∧
    detect_image_format [0x66, 0x74, 0x79, 0x70, 0x61, 0x76, 0x69, 0x66] =
      .error (.Image (unrecognized_image_msg
        [0x66, 0x74, 0x79, 0x70, 0x61, 0x76, 0x69, 0x66])) := by
  refine ⟨by decide, Or.inl ⟨0, by decide, by decide, by decide⟩, by decide, by decide⟩

/-- C6 (amended): for a buffer of length at least 4, the signatures are
checked in the order JPEG, PNG, GIF, BMP, TIFF, ICO, WebP, AVIF and the
first match wins; the AVIF clause is the source's guarded one (`avif_sig`:
whole block requires length ≥ 12, each candidate box offset additionally
requires `offset + 12 ≤ length`, and the `ftypavif` substring fallback runs
only when length ≥ 32); a buffer matching none of the signatures yields the
unrecognized-format error, never a guessed format. -/
theorem image_format_detection (data : List Nat) (h : 4 ≤ data.length) :
    (jpeg_sig data → detect_image_format data = .ok .Jpeg) ∧
    (¬ jpeg_sig data → png_sig data → detect_image_format data = .ok .Png) ∧
    (¬ jpeg_sig data → ¬ png_sig data → gif_sig data →
      detect_image_format data = .ok .Gif) ∧
    (¬ jpeg_sig data → ¬ png_sig data → ¬ gif_sig data → bmp_sig data →
      detect_image_format data = .ok .Bmp) ∧
    (¬ jpeg_sig data → ¬ png_sig data → ¬ gif_sig data → ¬ bmp_sig data →
      tiff_sig data → detect_image_format data = .ok .Tiff) ∧
    (¬ jpeg_sig data → ¬ png_sig data → ¬ gif_sig data → ¬ bmp_sig data →
      ¬ tiff_sig data → ico_sig data → detect_image_format data = .ok .Ico) ∧
    (¬ jpeg_sig data → ¬ png_sig data → ¬ gif_sig data → ¬ bmp_sig data →
      ¬ tiff_sig data → ¬ ico_sig data → webp_sig data →
      detect_image_format data = .ok .WebP) ∧
    (¬ jpeg_sig data → ¬ png_sig data → ¬ gif_sig data → ¬ bmp_sig data →
      ¬ tiff_sig data → ¬ ico_sig data → ¬ webp_sig data → avif_sig data →
      detect_image_format data = .ok .Avif) ∧
    (¬ jpeg_sig data → ¬ png_sig data → ¬ gif_sig data → ¬ bmp_sig data →
      ¬ tiff_sig data → ¬ ico_sig data → ¬ webp_sig data → ¬ avif_sig data →
      detect_image_format data = .error (.Image (unrecognized_image_msg data))) := by
  simp only [detect_image_format, if_neg (by omega : ¬ data.length = 0),
    if_neg (by omega : ¬ data.length < 4)]
  exact ⟨fun h1 => by rw [if_pos h1],
    fun n1 h2 => by rw [if_neg n1, if_pos h2],
    fun n1 n2 h3 => by rw [if_neg n1, if_neg n2, if_pos h3],
    fun n1 n2 n3 h4 => by rw [if_neg n1, if_neg n2, if_neg n3, if_pos h4],
    fun n1 n2 n3 n4 h5 => by rw [if_neg n1, if_neg n2, if_neg n3, if_neg n4, if_pos h5],
    fun n1 n2 n3 n4 n5 h6 => by
      rw [if_neg n1, if_neg n2, if_neg n3, if_neg n4, if_neg n5, if_pos h6],
    fun n1 n2 n3 n4 n5 n6 h7 => by
      rw [if_neg n1, if_neg n2, if_neg n3, if_neg n4, if_neg n5, if_neg n6, if_pos h7],
    fun n1 n2 n3 n4 n5 n6 n7 h8 => by
      rw [if_neg n1, if_neg n2, if_neg n3, if_neg n4, if_neg n5, if_neg n6, if_neg n7,
        if_pos h8],
    fun n1 n2 n3 n4 n5 n6 n7 n8 => by
      rw [if_neg n1, if_neg n2, if_neg n3, if_neg n4, if_neg n5, if_neg n6, if_neg n7,
        if_neg n8]⟩

/-- C6 witness: the 8-byte PNG fixture is not a JPEG and classifies as PNG
via the general theorem. -/
theorem image_format_detection_witness :
    detect_image_format [0x89, 0x50, 0x4E, 0x47, 0x0D, 0x0A, 0x1A, 0x0A] = .ok .Png :=
  (image_format_detection [0x89, 0x50, 0x4E, 0x47, 0x0D, 0x0A, 0x1A, 0x0A]
    (by decide)).2.1 (by decide) (by decide)

/-- Appending on the right keeps the head character of a nonempty string. -/
theorem string_head_append (s t : String) (c : Char) (h : s.data.head? = some c) :
    (s ++ t).data.head? = some c := by
  have e : (s ++ t).data = s.data ++ t.data := rfl
  rw [e, List.head?_append, h]
  rfl

/-- Every unrecognized-image message starts with `U`. -/
theorem unrecognized_image_msg_head (data : List Nat) :
    (unrecognized_image_msg data).data.head? = some 'U' :=
  string_head_append _ _ _ (string_head_append _ _ _ (by decide))

/-- Every insufficient-data message starts with `I`. -/
theorem insufficient_data_msg_head (n : Nat) :
    (insufficient_data_msg n).data.head? = some 'I' :=
  string_head_append _ _ _ (string_head_append _ _ _ (by decide))

/-- A buffer of length at least 4 can only fail image classification with
the unrecognized-format message. -/
theorem image_error_msg_of_ge4 (data : List Nat) (h : 4 ≤ data.length) (m : String)
    (hm : detect_image_format data = .error (.Image m)) :
    m = unrecognized_image_msg data := by
  simp only [detect_image_format, if_neg (show ¬ data.length = 0 by omega),
    if_neg (show ¬ data.length < 4 by omega)] at hm
  by_cases h1 : jpeg_sig data
  · rw [if_pos h1] at hm; exact Except.noConfusion hm
  rw [if_neg h1] at hm
  by_cases h2 : png_sig data
  · rw [if_pos h2] at hm; exact Except.noConfusion hm
  rw [if_neg h2] at hm
  by_cases h3 : gif_sig data
  · rw [if_pos h3] at hm; exact Except.noConfusion hm
  rw [if_neg h3] at hm
  by_cases h4 : bmp_sig data
  · rw [if_pos h4] at hm; exact Except.noConfusion hm
  rw [if_neg h4] at hm
  by_cases h5 : tiff_sig data
  · rw [if_pos h5] at hm; exact Except.noConfusion hm
  rw [if_neg h5] at hm
  by_cases h6 : ico_sig data
  · rw [if_pos h6] at hm; exact Except.noConfusion hm
  rw [if_neg h6] at hm
  by_cases h7 : webp_sig data
  · rw [if_pos h7] at hm; exact Except.noConfusion hm
  rw [if_neg h7] at hm
  by_cases h8 : avif_sig data
  · rw [if_pos h8] at hm; exact Except.noConfusion hm
  rw [if_neg h8] at hm
  exact (CbxError.Image.inj (Except.error.inj hm)).symm

/-- A buffer of length under 4 fails image classification with the empty or
the insufficient-data message. -/
theorem image_error_msg_of_lt4 (data : List Nat) (h : data.length < 4) (m : String)
    (hm : detect_image_format data = .error (.Image m)) :
    m = "Empty data" ∨ m = insufficient_data_msg data.length := by
  by_cases h0 : data.length = 0
  · unfold detect_image_format at hm
    rw [if_pos h0] at hm
    exact Or.inl (CbxError.Image.inj (Except.error.inj hm)).symm
  · unfold detect_image_format at hm
    rw [if_neg h0, if_pos h] at hm
    exact Or.inr (CbxError.Image.inj (Except.error.inj hm)).symm

/-- C7 counterexample: the empty input is shorter than 4 bytes but fails
with the distinct "Empty data" condition, not the insufficient-data
condition the claim prescribes for all short inputs. -/
theorem image_short_input_counterexample :
    detect_image_format [] = .error (.Image "Empty data") ∧
    ("Empty data" : String) ≠ insufficient_data_msg 0 := by
  exact ⟨by decide, by decide⟩

/-- C7 (amended): an empty input fails with the distinct EmptyData
condition, an input of 1 to 3 bytes fails with the InsufficientData
condition, no short input yields a format, and both short-input failure
messages are distinguishable from the UnrecognizedImage message produced
for a 4-byte-or-longer input matching no signature. -/
theorem image_short_input_distinct (data other : List Nat) :
    (data.length = 0 → detect_image_format data = .error (.Image "Empty data")) ∧
    (0 < data.length → data.length < 4 →
      detect_image_format data = .error (.Image (insufficient_data_msg data.length))) ∧
    (∀ t, data.length < 4 → detect_image_format data ≠ .ok t) ∧
    (∀ m m₂, data.length < 4 → 4 ≤ other.length →
      detect_image_format data = .error (.Image m) →
      detect_image_format other = .error (.Image m₂) → m ≠ m₂) := by
  refine ⟨?_, ?_, ?_, ?_⟩
  · intro h0
    unfold detect_image_format
    rw [if_pos h0]
  · intro hpos hlt
    unfold detect_image_format
    rw [if_neg (by omega), if_pos hlt]
  · intro t hlt hok
    by_cases h0 : data.length = 0
    · unfold detect_image_format at hok
      rw [if_pos h0] at hok
      exact Except.noConfusion hok
    · unfold detect_image_format at hok
      rw [if_neg h0, if_pos hlt] at hok
      exact Except.noConfusion hok
  · intro m m₂ hlt hge hm hm₂ heq
    have e₂ := image_error_msg_of_ge4 other hge m₂ hm₂
    have hU : m₂.data.head? = some 'U' := by
      rw [e₂]; exact unrecognized_image_msg_head other
    rcases image_error_msg_of_lt4 data hlt m hm with e | e
    · have : m.data.head? = some 'E' := by rw [e]; decide
      rw [heq, hU] at this
      exact absurd this (by decide)
    · have : m.data.head? = some 'I' := by
        rw [e]; exact insufficient_data_msg_head data.length
      rw [heq, hU] at this
      exact absurd this (by decide)

/-- C7 witness: the one-byte input fails with the insufficient-data
message, which differs from the unrecognized-format message of the
four-byte non-image input. -/
theorem image_short_input_distinct_witness :
    detect_image_format [0xFF] = .error (.Image (insufficient_data_msg 1)) ∧
    insufficient_data_msg 1 ≠ unrecognized_image_msg [0, 1, 2, 3] := by
  refine ⟨(image_short_input_distinct [0xFF] [0, 1, 2, 3]).2.1 (by decide) (by decide), ?_⟩
  exact (image_short_input_distinct [0xFF] [0, 1, 2, 3]).2.2.2
    (insufficient_data_msg 1) (unrecognized_image_msg [0, 1, 2, 3])
    (by decide) (by decide)
    ((image_short_input_distinct [0xFF] [0, 1, 2, 3]).2.1 (by decide) (by decide))
    (by decide)

/-! ### Natural-order comparator

`natural_sort_cmp` in `src/archive/utils.rs` delegates to the external
`natord` crate, whose source is not part of this repository; the comparator
below is therefore modelled from spec section 4.2. -/

/-- Modelled from the spec: one token of the natural-order comparator — a
maximal digit run, carried as its numeric value, or one non-digit
character. -/
inductive NatTok where
  | num (v : Nat)
  | ch (c : Char)
deriving DecidableEq, Repr

/-- Numeric value of a digit character. -/
def digitVal (c : Char) : Nat := c.toNat - 48

/-- Modelled from the spec: splits a character list into alternating
maximal digit runs (accumulated into their numeric value, most significant
digit first) and single non-digit characters.  `acc` carries the value of
the digit run currently open, if any. -/
def tokenizeAux : List Char → Option Nat → List NatTok
  | [], none => []
  | [], some v => [.num v]
  | c :: rest, none =>
    if c.isDigit then tokenizeAux rest (some (digitVal c))
    else .ch c :: tokenizeAux rest none
  | c :: rest, some v =>
    if c.isDigit then tokenizeAux rest (some (v * 10 + digitVal c))
    else .num v :: .ch c :: tokenizeAux rest none

/-- Modelled from the spec: tokenization of a string for natural-order
comparison. -/
def tokenize (l : List Char) : List NatTok := tokenizeAux l none

/-- Modelled from the spec: ordering of two comparator tokens.  Two digit
runs compare by numeric value; two characters compare by code point; a
digit run against a non-digit character compares as the run's first digit
character compares against that character, and because the digits occupy
the contiguous code points 48 to 57, that outcome depends only on which
side of the digit block the non-digit character lies. -/
def tokCmp : NatTok → NatTok → Ordering
  | .num v, .num w => compare v w
  | .ch c, .ch d => compare c.toNat d.toNat
  | .num _, .ch c => if c.toNat < 48 then .gt else .lt
  | .ch c, .num _ => if c.toNat < 48 then .lt else .gt

/-- Modelled from the spec: lexicographic comparison of token lists, the
shorter list winning on exhaustion. -/
def lexCmp : List NatTok → List NatTok → Ordering
  | [], [] => .eq
  | [], _ :: _ => .lt
  | _ :: _, [] => .gt
  | a :: as, b :: bs =>
    match tokCmp a b with
    | .eq => lexCmp as bs
    | o => o

/-- Embeds `natural_sort_cmp` from `src/archive/utils.rs`; the delegated
`natord::compare` is the spec-modelled `lexCmp` over `tokenize`. -/
def natural_sort_cmp (a b : String) : Ordering :=
  lexCmp (tokenize a.data) (tokenize b.data)

theorem natCompare_swap (a b : Nat) : compare a b = (compare b a).swap := by
  rcases Nat.lt_trichotomy a b with h | h | h
  · rw [Nat.compare_eq_lt.mpr h, Nat.compare_eq_gt.mpr h]; rfl
  · rw [h, Nat.compare_eq_eq.mpr rfl]; rfl
  · rw [Nat.compare_eq_gt.mpr h, Nat.compare_eq_lt.mpr h]; rfl

theorem tokCmp_eq_iff {a b : NatTok} : tokCmp a b = .eq ↔ a = b := by
  cases a <;> cases b <;>
    simp only [tokCmp, Nat.compare_eq_eq, NatTok.num.injEq, NatTok.ch.injEq]
  · constructor
    · intro h
      split at h <;> exact Ordering.noConfusion h
    · intro h
      exact NatTok.noConfusion h
  · constructor
    · intro h
      split at h <;> exact Ordering.noConfusion h
    · intro h
      exact NatTok.noConfusion h
  · constructor
    · intro h
      exact Char.eq_of_val_eq (UInt32.ext h)
    · intro h
      rw [h]

theorem tokCmp_swap (a b : NatTok) : tokCmp a b = (tokCmp b a).swap := by
  cases a <;> cases b <;> simp only [tokCmp]
  · exact natCompare_swap _ _
  · split <;> rfl
  · split <;> rfl
  · exact natCompare_swap _ _

theorem tokCmp_trans {a b c : NatTok} (h1 : tokCmp a b = .lt) (h2 : tokCmp b c = .lt) :
    tokCmp a c = .lt := by
  cases a <;> cases b <;> cases c <;>
    simp only [tokCmp, Nat.compare_eq_lt] at h1 h2 ⊢ <;>
    (try split_ifs at h1 h2 ⊢) <;>
    first
      | rfl
      | omega

theorem lexCmp_refl (l : List NatTok) : lexCmp l l = .eq := by
  induction l with
  | nil => rfl
  | cons a as ih =>
    simp only [lexCmp, tokCmp_eq_iff.mpr rfl, ih]

theorem lexCmp_eq_iff {l m : List NatTok} : lexCmp l m = .eq ↔ l = m := by
  constructor
  · induction l generalizing m with
    | nil =>
      cases m with
      | nil => intro _; rfl
      | cons b bs => intro h; exact Ordering.noConfusion h
    | cons a as ih =>
      cases m with
      | nil => intro h; exact Ordering.noConfusion h
      | cons b bs =>
        intro h
        simp only [lexCmp] at h
        rcases hc : tokCmp a b with _ | _ | _ <;> rw [hc] at h
        · exact Ordering.noConfusion h
        · rw [tokCmp_eq_iff.mp hc, ih h]
        · exact Ordering.noConfusion h
  · intro h
    rw [h]
    exact lexCmp_refl m

theorem lexCmp_swap (l m : List NatTok) : lexCmp l m = (lexCmp m l).swap := by
  induction l generalizing m with
  | nil => cases m <;> rfl
  | cons a as ih =>
    cases m with
    | nil => rfl
    | cons b bs =>
      simp only [lexCmp, tokCmp_swap a b]
      rcases tokCmp b a with _ | _ | _
      · rfl
      · exact ih bs
      · rfl

theorem lexCmp_trans {l m k : List NatTok} (h1 : lexCmp l m = .lt) (h2 : lexCmp m k = .lt) :
    lexCmp l k = .lt := by
  induction l generalizing m k with
  | nil =>
    cases m with
    | nil => exact h2
    | cons b bs =>
      cases k with
      | nil => exact Ordering.noConfusion h2
      | cons c cs => rfl
  | cons a as ih =>
    cases m with
    | nil => exact Ordering.noConfusion h1
    | cons b bs =>
      cases k with
      | nil => exact Ordering.noConfusion h2
      | cons c cs =>
        simp only [lexCmp] at h1 h2 ⊢
        rcases hab : tokCmp a b with _ | _ | _ <;> rw [hab] at h1
        · rcases hbc : tokCmp b c with _ | _ | _ <;> rw [hbc] at h2
          · rw [tokCmp_trans hab hbc]
          · rw [← tokCmp_eq_iff.mp hbc, hab]
          · exact Ordering.noConfusion h2
        · rcases hbc : tokCmp b c with _ | _ | _ <;> rw [hbc] at h2
          · rw [tokCmp_eq_iff.mp hab, hbc]
          · rw [tokCmp_eq_iff.mp hab, hbc]
            exact ih h1 h2
          · exact Ordering.noConfusion h2
        · exact Ordering.noConfusion h1

theorem natural_sort_cmp_refl (x : String) : natural_sort_cmp x x = .eq :=
  lexCmp_refl _

theorem natural_sort_cmp_swap (a b : String) :
    natural_sort_cmp a b = (natural_sort_cmp b a).swap :=
  lexCmp_swap _ _

theorem natural_sort_cmp_lt_iff_gt (a b : String) :
    natural_sort_cmp a b = .lt ↔ natural_sort_cmp b a = .gt := by
  rw [natural_sort_cmp_swap a b]
  rcases natural_sort_cmp b a with _ | _ | _ <;>
    exact ⟨fun h => by first | rfl | exact Ordering.noConfusion h,
           fun h => by first | rfl | exact Ordering.noConfusion h⟩

theorem natural_sort_cmp_trans {a b c : String}
    (h1 : natural_sort_cmp a b = .lt) (h2 : natural_sort_cmp b c = .lt) :
    natural_sort_cmp a c = .lt :=
  lexCmp_trans h1 h2

/-- The sort key used when modelling `sort_by(natural_sort_cmp)`: not
greater under the comparator. -/
def natLe (a b : String) : Prop := natural_sort_cmp a b ≠ .gt

instance : DecidableRel natLe := fun a b => by
  unfold natLe
  infer_instance

instance : IsTotal String natLe where
  total a b := by
    unfold natLe
    by_cases h : natural_sort_cmp a b = .gt
    · right
      rw [natural_sort_cmp_swap b a, h]
      intro hc
      exact Ordering.noConfusion hc
    · exact Or.inl h

instance : IsTrans String natLe where
  trans a b c h1 h2 := by
    unfold natLe at h1 h2 ⊢
    intro hac
    rcases hab : natural_sort_cmp a b with _ | _ | _
    · rcases hbc : natural_sort_cmp b c with _ | _ | _
      · rw [natural_sort_cmp_trans hab hbc] at hac
        exact Ordering.noConfusion hac
      · have : tokenize b.data = tokenize c.data := lexCmp_eq_iff.mp hbc
        unfold natural_sort_cmp at hab hac
        rw [this] at hab
        rw [hab] at hac
        exact Ordering.noConfusion hac
      · exact h2 hbc
    · have : tokenize a.data = tokenize b.data := lexCmp_eq_iff.mp hab
      unfold natural_sort_cmp at hac
      rw [this] at hac
      exact h2 hac
    · exact h1 hab

/-- C3: the natural-order comparator is reflexive (`compare x x = Equal`),
antisymmetric (`Less` one way exactly when `Greater` the other), and
transitive; digit runs compare by numeric value, so `page2.jpg` sorts
before `page10.jpg`, and sorting the example list with the comparator
leaves it in the order page1 < page2 < page10 (not ASCII order). -/
theorem natural_order_total_order (a b c x : String) :
    natural_sort_cmp x x = .eq ∧
    (natural_sort_cmp a b = .lt ↔ natural_sort_cmp b a = .gt) ∧
    (natural_sort_cmp a b = .lt → natural_sort_cmp b c = .lt →
      natural_sort_cmp a c = .lt) ∧
    natural_sort_cmp "page1.jpg" "page2.jpg" = .lt ∧
    natural_sort_cmp "page2.jpg" "page10.jpg" = .lt ∧
    (["page1.jpg", "page2.jpg", "page10.jpg"] : List String).insertionSort natLe =
      ["page1.jpg", "page2.jpg", "page10.jpg"] ∧
    (["page10.jpg", "page2.jpg", "page1.jpg"] : List String).insertionSort natLe =
      ["page1.jpg", "page2.jpg", "page10.jpg"] :=
  ⟨natural_sort_cmp_refl x, natural_sort_cmp_lt_iff_gt a b,
    fun h1 h2 => natural_sort_cmp_trans h1 h2,
    by decide, by decide, by decide, by decide⟩

/-- C3 witness: transitivity applied at three concrete filenames. -/
theorem natural_order_total_order_witness :
    natural_sort_cmp "img2.png" "img10.png" = .lt ∧
    natural_sort_cmp "img10.png" "img100.png" = .lt ∧
    natural_sort_cmp "img2.png" "img100.png" = .lt :=
  ⟨by decide, by decide,
    (natural_order_total_order "img2.png" "img10.png" "img100.png" "x").2.2.1
      (by decide) (by decide)⟩

/-! ### Image-entry selection (`src/archive/utils.rs`) -/

/-- Embeds `IMAGE_EXTENSIONS` from `src/archive/utils.rs`. -/
def IMAGE_EXTENSIONS : List String :=
  ["bmp", "ico", "gif", "jpg", "jpe", "jfif", "jpeg", "png", "tif", "tiff", "webp", "avif"]

/-- Rust `str::to_ascii_lowercase`: `Char.toLower` maps exactly the ASCII
uppercase letters, like Rust's per-byte ASCII lowercasing. -/
def to_ascii_lowercase (s : String) : String := ⟨s.data.map Char.toLower⟩

/-- Raw separator split of a path's characters; empty pieces arise from
leading, trailing or repeated separators. -/
def splitPath (l : List Char) : List (List Char) :=
  let r := l.foldl
    (fun (acc : List (List Char) × List Char) c =>
      if c = '/' ∨ c = '\\' then (acc.1 ++ [acc.2], []) else (acc.1, acc.2 ++ [c]))
    ([], [])
  r.1 ++ [r.2]

/-- The path's components as Rust's `Components` iteration yields them:
empty pieces (repeated or trailing separators) and `.` pieces are
normalized away; `..` is kept as a `ParentDir` component. -/
def pathComponents (l : List Char) : List (List Char) :=
  (splitPath l).filter (fun c => ¬ (c = [] ∨ c = ['.']))

/-- Embeds Rust `Path::file_name` over a path string: the last normalized
component, and `none` when no component remains (empty path, root, bare
`.`) or when the last component is the `ParentDir` `..`.  So
`"foo.txt/."` and `"foo.txt//"` both name `foo.txt`, as in Rust.
(Windows drive/UNC prefixes are not modelled; archive member names and
plain file paths do not use them.) -/
def rust_file_name (l : List Char) : Option (List Char) :=
  match (pathComponents l).getLast? with
  | none => none
  | some c => if c = ['.', '.'] then none else some c

/-- Characters after the last dot, or `none` when no dot occurs. -/
def afterLastDot (l : List Char) : Option (List Char) :=
  l.foldl (fun acc c => if c = '.' then some [] else acc.map (· ++ [c])) none

/-- Embeds Rust `Path::extension` over a path string: the portion of the
file name (per `rust_file_name`) after its last dot; `none` when there is
no file name, when the file name has no dot, or when its only dot is the
leading dot of a hidden file. -/
def rust_extension (path : String) : Option String :=
  match rust_file_name path.data with
  | none => none
  | some fn =>
    match fn with
    | [] => none
    | c :: rest =>
      if c = '.' then (afterLastDot rest).map (⟨·⟩) else (afterLastDot fn).map (⟨·⟩)

/-- Embeds `is_image_file` from `src/archive/utils.rs`: the extension,
ASCII-lowercased, must belong to `IMAGE_EXTENSIONS`. -/
def is_image_file (name : String) : Bool :=
  match rust_extension name with
  | some ext => IMAGE_EXTENSIONS.contains (to_ascii_lowercase ext)
  | none => false

/-- Embeds `find_first_image` from `src/archive/utils.rs`: filter the names
to image files; `none` when no image remains; otherwise the head of the
list, sorted by `natural_sort_cmp` when `sort` is true (Rust's stable
`sort_by` modelled as a stable insertion sort on the comparator's
not-greater relation). -/
def find_first_image (names : List String) (sort : Bool) : Option String :=
  let images := names.filter (fun n => is_image_file n)
  if images.isEmpty then none
  else (if sort then images.insertionSort natLe else images).head?

/-- C1: with `sort=true`, `find_first_image` returns a qualifying name that
is minimal under the natural-order comparator; with `sort=false` it returns
the first qualifying name in listing order; with no qualifying name it
returns `none` (and conversely never returns `none` when an image exists);
and on the example list, `sort=true` yields `page1.jpg` while `sort=false`
yields `page10.jpg`. -/
theorem find_first_image_spec (names : List String) (sort : Bool) :
    (names.filter (fun n => is_image_file n) = [] → find_first_image names sort = none) ∧
    (find_first_image names sort = none → names.filter (fun n => is_image_file n) = []) ∧
    (sort = false →
      find_first_image names sort = (names.filter (fun n => is_image_file n)).head?) ∧
    (sort = true → ∀ r, find_first_image names sort = some r →
      r ∈ names.filter (fun n => is_image_file n) ∧
      ∀ y ∈ names.filter (fun n => is_image_file n), natural_sort_cmp r y ≠ .gt) ∧
    find_first_image ["readme.txt", "page10.jpg", "page2.jpg", "page1.jpg"] true =
      some "page1.jpg" ∧
    find_first_image ["readme.txt", "page10.jpg", "page2.jpg", "page1.jpg"] false =
      some "page10.jpg" := by
  refine ⟨?_, ?_, ?_, ?_, by decide, by decide⟩
  · intro h
    unfold find_first_image
    rw [h]
    rfl
  · intro h
    rcases e : names.filter (fun n => is_image_file n) with _ | ⟨b, bs⟩
    · rfl
    · exfalso
      unfold find_first_image at h
      rw [e] at h
      simp only [List.isEmpty_cons, Bool.false_eq_true, if_false] at h
      cases sort with
      | false => simp at h
      | true =>
        have hp := (List.perm_insertionSort natLe (b :: bs)).length_eq
        rcases hs : (b :: bs).insertionSort natLe with _ | ⟨a, as⟩
        · rw [hs] at hp
          simp at hp
        · rw [if_pos rfl, hs] at h
          simp at h
  · intro hs
    subst hs
    unfold find_first_image
    rcases e : names.filter (fun n => is_image_file n) with _ | ⟨b, bs⟩
    · rfl
    · simp
  · intro hs r h
    subst hs
    unfold find_first_image at h
    rcases e : names.filter (fun n => is_image_file n) with _ | ⟨b, bs⟩
    · rw [e] at h
      exact Option.noConfusion h
    · rw [e] at h
      simp only [List.isEmpty_cons, Bool.false_eq_true, if_false, if_pos rfl] at h
      have hperm := List.perm_insertionSort natLe (b :: bs)
      have hsorted := List.sorted_insertionSort natLe (b :: bs)
      rcases hs : (b :: bs).insertionSort natLe with _ | ⟨a, as⟩
      · rw [hs] at hperm
        simpa using hperm.length_eq
      · rw [hs] at h hperm hsorted
        have har : a = r := by simpa using h
        subst har
        constructor
        · exact hperm.mem_iff.mp (List.mem_cons_self a as)
        · intro y hy
          have hy' : y ∈ a :: as := hperm.mem_iff.mpr hy
          rcases List.mem_cons.mp hy' with hya | hya
          · rw [hya]
            rw [natural_sort_cmp_refl a]
            intro hc
            exact Ordering.noConfusion hc
          · exact (List.sorted_cons.mp hsorted).1 y hya

/-- C1 witness: on the example list with `sort=true`, the returned
`page1.jpg` is a member of the image filter and is minimal under the
comparator. -/
theorem find_first_image_spec_witness :
    "page1.jpg" ∈ (["readme.txt", "page10.jpg", "page2.jpg", "page1.jpg"] : List String).filter
      (fun n => is_image_file n) ∧
    ∀ y ∈ (["readme.txt", "page10.jpg", "page2.jpg", "page1.jpg"] : List String).filter
      (fun n => is_image_file n), natural_sort_cmp "page1.jpg" y ≠ .gt :=
  (find_first_image_spec ["readme.txt", "page10.jpg", "page2.jpg", "page1.jpg"]
    true).2.2.2.1 rfl "page1.jpg" (by decide)

/-! ### IStream bulk slurp (`src/archive/stream_reader.rs`) -/

/-- Embeds `MAX_STREAM_SIZE` (10 GiB) from `src/archive/stream_reader.rs`. -/
def MAX_STREAM_SIZE : Nat := 10 * 1024 * 1024 * 1024

/-- Semantic model of the COM `IStream` seen by `read_stream_to_memory`:
`size` is the absolute end offset discovered by seeking to the end,
`content i` the byte at offset `i`, and `deliver pos req` the byte count a
`Read(req)` call reports when the cursor is at `pos` (COM allows short or
empty deliveries; the COM contract caps delivery at the request, which the
theorems take as a hypothesis). -/
structure StreamModel where
  size : Nat
  content : Nat → Nat
  deliver : Nat → Nat → Nat

/-- The bytes `content[pos..pos+n]` of the model. -/
def readChunkBytes (st : StreamModel) (pos n : Nat) : List Nat :=
  (List.range n).map (fun i => st.content (pos + i))

/-- Chunk write into the pre-sized buffer:
`buffer[offset..offset+chunk.len()]` is overwritten with `chunk`. -/
def writeChunk (buffer : List Nat) (offset : Nat) (chunk : List Nat) : List Nat :=
  buffer.take offset ++ chunk ++ buffer.drop (offset + chunk.length)

/-- The per-call read request of the slurp loop:
`remaining.min(1024 * 1024)` (1 MiB chunks). -/
def chunkRequest (size totalRead : Nat) : Nat :=
  min (size - totalRead) (1024 * 1024)

/-- The `while total_read < stream_size` loop of `read_stream_to_memory`:
request up to 1 MiB, fail on a zero-byte read (`bytes_read == 0`),
otherwise copy the delivered bytes into the buffer at `total_read` and
advance by the reported count. -/
def readLoop (st : StreamModel) (size totalRead : Nat) (buffer : List Nat) :
    Option (List Nat) :=
  if _h : totalRead < size then
    let delivered := st.deliver totalRead (chunkRequest size totalRead)
    if _hd : delivered = 0 then none
    else
      readLoop st size (totalRead + delivered)
        (writeChunk buffer totalRead (readChunkBytes st totalRead delivered))
  else some buffer
termination_by size - totalRead
decreasing_by omega

/-- Embeds `read_stream_to_memory` from `src/archive/stream_reader.rs`
(lines 34-118): discover the size by seeking to the end, reject an empty
stream and one over `MAX_STREAM_SIZE`, seek back, then slurp into a
zero-initialized buffer of exactly the discovered size. -/
def read_stream_to_memory (st : StreamModel) : Except CbxError (List Nat) :=
  let stream_size := st.size
  if stream_size = 0 then .error (.Archive "Empty stream")
  else if stream_size > MAX_STREAM_SIZE then
    .error (.Archive ("Stream too large: " ++ toString stream_size ++ " bytes"))
  else
    match readLoop st stream_size 0 (List.replicate stream_size 0) with
    | none => .error (.Archive "Unexpected end of stream")
    | some buffer => .ok buffer

theorem writeChunk_length (buffer : List Nat) (offset : Nat) (chunk : List Nat)
    (h : offset + chunk.length ≤ buffer.length) :
    (writeChunk buffer offset chunk).length = buffer.length := by
  unfold writeChunk
  simp only [List.length_append, List.length_take, List.length_drop]
  omega

theorem readChunkBytes_append (st : StreamModel) (t d : Nat) :
    readChunkBytes st 0 t ++ readChunkBytes st t d = readChunkBytes st 0 (t + d) := by
  unfold readChunkBytes
  rw [List.range_add, List.map_append, List.map_map]
  simp [Function.comp_def]

theorem readChunkBytes_length (st : StreamModel) (pos n : Nat) :
    (readChunkBytes st pos n).length = n := by
  unfold readChunkBytes
  simp

theorem writeChunk_take (buffer : List Nat) (t : Nat) (chunk : List Nat)
    (h : t ≤ buffer.length) :
    (writeChunk buffer t chunk).take (t + chunk.length) = buffer.take t ++ chunk := by
  unfold writeChunk
  have hlen : (buffer.take t ++ chunk).length = t + chunk.length := by
    simp only [List.length_append, List.length_take]
    omega
  rw [List.take_append_of_le_length (by omega), List.take_of_length_le (by omega)]

/-- Invariant of the slurp loop: when the stream never over-delivers, a
successful run fills the buffer with exactly the stream's content. -/
theorem readLoop_correct (st : StreamModel) (hcap : ∀ p n, st.deliver p n ≤ n)
    (size : Nat) :
    ∀ k totalRead buffer, size - totalRead = k → totalRead ≤ size →
      buffer.length = size →
      buffer.take totalRead = readChunkBytes st 0 totalRead →
      ∀ out, readLoop st size totalRead buffer = some out →
        out = readChunkBytes st 0 size := by
  intro k
  induction k using Nat.strong_induction_on with
  | _ k ih =>
    intro totalRead buffer hk hle hlen hpre out hout
    rw [readLoop] at hout
    by_cases h : totalRead < size
    · rw [dif_pos h] at hout
      by_cases hd : st.deliver totalRead (chunkRequest size totalRead) = 0
      · rw [dif_pos hd] at hout
        exact Option.noConfusion hout
      · rw [dif_neg hd] at hout
        have hdle : st.deliver totalRead (chunkRequest size totalRead) ≤
            chunkRequest size totalRead := hcap _ _
        have hcr : chunkRequest size totalRead ≤ size - totalRead :=
          Nat.min_le_left _ _
        refine ih (size - (totalRead + st.deliver totalRead (chunkRequest size totalRead)))
          (by omega) _ _ rfl (by omega) ?_ ?_ out hout
        · rw [writeChunk_length _ _ _ (by rw [readChunkBytes_length]; omega)]
          exact hlen
        · rw [show totalRead + st.deliver totalRead (chunkRequest size totalRead) =
            totalRead + (readChunkBytes st totalRead
              (st.deliver totalRead (chunkRequest size totalRead))).length by
                rw [readChunkBytes_length]]
          rw [writeChunk_take _ _ _ (by omega), readChunkBytes_length, hpre,
            readChunkBytes_append]
    · rw [dif_neg h] at hout
      have heq : totalRead = size := by omega
      have hbuf : buffer = out := Option.some.inj hout
      rw [← hbuf, ← List.take_of_length_le (Nat.le_of_eq hlen), ← heq]
      rw [hpre, heq]

/-- A zero-byte delivery before completion makes the slurp loop fail. -/
theorem readLoop_zero_read (st : StreamModel) (size totalRead : Nat)
    (buffer : List Nat) (h : totalRead < size)
    (hz : st.deliver totalRead (chunkRequest size totalRead) = 0) :
    readLoop st size totalRead buffer = none := by
  rw [readLoop, dif_pos h, dif_pos hz]

/-- C4: the bulk slurp rejects a zero-size stream as the EmptyStream
condition and an over-10-GiB stream as the StreamTooLarge condition; each
loop iteration requests at most 1 MiB; for an in-range size, a successful
run returns a buffer of exactly `size` bytes equal to the stream content
from offset 0, a loop failure surfaces as the UnexpectedEndOfStream
condition, and a zero-byte delivery before completion fails the loop. -/
theorem read_stream_to_memory_spec (st : StreamModel)
    (hcap : ∀ p n, st.deliver p n ≤ n) :
    (st.size = 0 → read_stream_to_memory st = .error (.Archive "Empty stream")) ∧
    (st.size > MAX_STREAM_SIZE →
      read_stream_to_memory st =
        .error (.Archive ("Stream too large: " ++ toString st.size ++ " bytes"))) ∧
    (∀ s t, chunkRequest s t ≤ 1024 * 1024) ∧
    (0 < st.size → st.size ≤ MAX_STREAM_SIZE →
      ∀ out, read_stream_to_memory st = .ok out →
        out.length = st.size ∧ out = readChunkBytes st 0 st.size) ∧
    (0 < st.size → st.size ≤ MAX_STREAM_SIZE →
      readLoop st st.size 0 (List.replicate st.size 0) = none →
      read_stream_to_memory st = .error (.Archive "Unexpected end of stream")) ∧
    (∀ totalRead buffer, totalRead < st.size →
      st.deliver totalRead (chunkRequest st.size totalRead) = 0 →
      readLoop st st.size totalRead buffer = none) := by
  refine ⟨?_, ?_, ?_, ?_, ?_, ?_⟩
  · intro h0
    unfold read_stream_to_memory
    rw [if_pos h0]
  · intro hbig
    unfold read_stream_to_memory
    rw [if_neg (by omega), if_pos hbig]
  · intro s t
    exact Nat.min_le_right _ _
  · intro hpos hle out hout
    unfold read_stream_to_memory at hout
    rw [if_neg (by omega), if_neg (by omega)] at hout
    rcases hl : readLoop st st.size 0 (List.replicate st.size 0) with _ | buffer
    · rw [hl] at hout
      exact Except.noConfusion hout
    · rw [hl] at hout
      have hb : buffer = out := Except.ok.inj hout
      have := readLoop_correct st hcap st.size st.size 0 (List.replicate st.size 0)
        (by omega) (by omega) (by simp) (by simp [readChunkBytes]) buffer hl
      rw [← hb, this, readChunkBytes_length]
      exact ⟨rfl, rfl⟩
  · intro hpos hle hnone
    unfold read_stream_to_memory
    rw [if_neg (by omega), if_neg (by omega), hnone]
  · intro totalRead buffer hlt hz
    exact readLoop_zero_read st st.size totalRead buffer hlt hz

/-- A fully delivering 3-byte stream slurps successfully; shows the
success branch of the slurp is reachable. -/
theorem read_stream_small_ok :
    read_stream_to_memory ⟨3, fun i => i + 10, fun _ n => n⟩ = .ok [10, 11, 12] := by
  have h1 : readLoop ⟨3, fun i => i + 10, fun _ n => n⟩ 3 0 (List.replicate 3 0) =
      some [10, 11, 12] := by
    rw [readLoop]
    rw [dif_pos (by norm_num)]
    norm_num [chunkRequest]
    rw [readLoop]
    rw [dif_neg (by norm_num)]
    norm_num [writeChunk, readChunkBytes, List.range_succ]
  unfold read_stream_to_memory
  rw [if_neg (by norm_num), if_neg (by norm_num [MAX_STREAM_SIZE]), h1]

/-- C4 witness: the zero-size stream model fails with the EmptyStream
condition, and on the concrete 3-byte stream the success clause applies
with the slurped buffer equal to the stream content. -/
theorem read_stream_to_memory_spec_witness :
    read_stream_to_memory ⟨0, fun _ => 0, fun _ n => n⟩ =
      .error (.Archive "Empty stream") ∧
    (([10, 11, 12] : List Nat).length = 3 ∧
      ([10, 11, 12] : List Nat) = readChunkBytes ⟨3, fun i => i + 10, fun _ n => n⟩ 0 3) :=
  ⟨(read_stream_to_memory_spec ⟨0, fun _ => 0, fun _ n => n⟩
      (fun _ n => Nat.le_refl n)).1 rfl,
   (read_stream_to_memory_spec ⟨3, fun i => i + 10, fun _ n => n⟩
      (fun _ n => Nat.le_refl n)).2.2.2.1 (by norm_num)
      (by norm_num [MAX_STREAM_SIZE]) [10, 11, 12] read_stream_small_ok⟩

/-! ### IStream adapter (`IStreamReader` in `src/archive/stream_reader.rs`) -/

/-- State of the underlying COM stream: total length and current cursor. -/
structure ComStream where
  len : Nat
  cursor : Nat
deriving DecidableEq, Repr

/-- `Seek(0, STREAM_SEEK_END, &mut end)`: cursor moves to the end, which is
reported back. -/
def ComStream.seekEnd (s : ComStream) : ComStream × Nat :=
  ({ s with cursor := s.len }, s.len)

/-- `Seek(p, STREAM_SEEK_SET, _)`: cursor moves to the absolute offset. -/
def ComStream.seekTo (s : ComStream) (p : Nat) : ComStream × Nat :=
  ({ s with cursor := p }, p)

/-- `Read(buf, n, &mut bytes_read)` of a well-behaved stream: delivers up
to `n` bytes, bounded by the bytes remaining past the cursor. -/
def ComStream.readBytes (s : ComStream) (n : Nat) : ComStream × Nat :=
  let d := min n (s.len - s.cursor)
  ({ s with cursor := s.cursor + d }, d)

/-- Embeds the `IStreamReader` adapter state from
`src/archive/stream_reader.rs`: the owned stream plus the tracked
`position`. -/
structure IStreamReader where
  stream : ComStream
  position : Nat
deriving DecidableEq, Repr

/-- Embeds `IStreamReader::size` (lines 156-170): seek to end to learn the
total length, seek back to the tracked position, return the length. -/
def IStreamReader.size (r : IStreamReader) : Nat × IStreamReader :=
  let (s1, endPos) := r.stream.seekEnd
  let (s2, _) := s1.seekTo r.position
  (endPos, { r with stream := s2 })

/-- Embeds `Read::read` for `IStreamReader` (lines 173-209): delegate to
the stream and advance the tracked position by the reported count. -/
def IStreamReader.read (r : IStreamReader) (n : Nat) : Nat × IStreamReader :=
  let (s1, d) := r.stream.readBytes n
  (d, { stream := s1, position := r.position + d })

/-- C8: `size()` leaves the adapter's observable position unchanged (both
the tracked `position` field and the underlying cursor, which it restores
to the tracked position), returns the total stream length, and therefore
two calls in a row — or a call after an interleaved read — report the same
length while preserving the position reached. -/
theorem istream_size_frame (r : IStreamReader) (n : Nat) :
    (r.size).2.position = r.position ∧
    (r.size).2.stream.cursor = r.position ∧
    (r.size).1 = r.stream.len ∧
    ((r.size).2.size).1 = (r.size).1 ∧
    ((r.size).2.size).2.position = r.position ∧
    ((r.read n).2.size).1 = (r.size).1 ∧
    ((r.read n).2.size).2.position = (r.read n).2.position :=
  ⟨rfl, rfl, rfl, rfl, rfl, rfl, rfl⟩

/-! ### Extension-based archive typing (`src/archive/mod.rs`) -/

/-- Embeds `ArchiveType::from_extension` (lines 61-68): lowercase the
extension, then the fixed table.  Rust's Unicode `to_lowercase` is
modelled by ASCII lowercasing: no non-ASCII character lowercases into the
ASCII letters of the eight table entries, so every input classifies
identically. -/
def ArchiveType.from_extension (ext : String) : Option ArchiveType :=
  let e := to_ascii_lowercase ext
  if e = "zip" ∨ e = "cbz" ∨ e = "epub" ∨ e = "phz" then some .Zip
  else if e = "rar" ∨ e = "cbr" then some .Rar
  else if e = "7z" ∨ e = "cb7" then some .SevenZip
  else none

/-- Embeds the classification prefix of `open_archive` (lines 103-117):
extract the path's extension (`None` is the `InvalidPath` error), map it
through `ArchiveType::from_extension` (`None` is `UnsupportedFormat`
carrying the raw extension).  The subsequent backend `open` dispatch on the
classified type is outside the embedded scope. -/
def open_archive_classify (path : String) : Except CbxError ArchiveType :=
  match rust_extension path with
  | none => .error .InvalidPath
  | some ext =>
    match ArchiveType.from_extension ext with
    | none => .error (.UnsupportedFormat ext)
    | some t => .ok t

theorem from_extension_table (e : String) :
    ((if e = "zip" ∨ e = "cbz" ∨ e = "epub" ∨ e = "phz" then some ArchiveType.Zip
      else if e = "rar" ∨ e = "cbr" then some ArchiveType.Rar
      else if e = "7z" ∨ e = "cb7" then some ArchiveType.SevenZip
      else none) = some ArchiveType.Zip ↔
        e ∈ (["zip", "cbz", "epub", "phz"] : List String)) ∧
    ((if e = "zip" ∨ e = "cbz" ∨ e = "epub" ∨ e = "phz" then some ArchiveType.Zip
      else if e = "rar" ∨ e = "cbr" then some ArchiveType.Rar
      else if e = "7z" ∨ e = "cb7" then some ArchiveType.SevenZip
      else none) = some ArchiveType.Rar ↔ e ∈ (["rar", "cbr"] : List String)) ∧
    ((if e = "zip" ∨ e = "cbz" ∨ e = "epub" ∨ e = "phz" then some ArchiveType.Zip
      else if e = "rar" ∨ e = "cbr" then some ArchiveType.Rar
      else if e = "7z" ∨ e = "cb7" then some ArchiveType.SevenZip
      else none) = none ↔
        e ∉ (["zip", "cbz", "epub", "phz", "rar", "cbr", "7z", "cb7"] : List String)) := by
  by_cases h1 : e = "zip"
  · subst h1; decide
  by_cases h2 : e = "cbz"
  · subst h2; decide
  by_cases h3 : e = "epub"
  · subst h3; decide
  by_cases h4 : e = "phz"
  · subst h4; decide
  by_cases h5 : e = "rar"
  · subst h5; decide
  by_cases h6 : e = "cbr"
  · subst h6; decide
  by_cases h7 : e = "7z"
  · subst h7; decide
  by_cases h8 : e = "cb7"
  · subst h8; decide
  rw [if_neg (by tauto), if_neg (by tauto), if_neg (by tauto)]
  simp [h1, h2, h3, h4, h5, h6, h7, h8]

/-- C9: extension-based typing is exactly the case-insensitive table
(`zip`, `cbz`, `epub`, `phz` to Zip; `rar`, `cbr` to Rar; `7z`, `cb7` to
SevenZip; everything else to no type), and a path whose extension exists
but is unsupported — the empty extension of a trailing-dot name included —
fails classification with the `UnsupportedFormat` condition carrying that
extension; a success always comes from the table. -/
theorem from_extension_spec (ext path : String) :
    (ArchiveType.from_extension ext = some .Zip ↔
      to_ascii_lowercase ext ∈ (["zip", "cbz", "epub", "phz"] : List String)) ∧
    (ArchiveType.from_extension ext = some .Rar ↔
      to_ascii_lowercase ext ∈ (["rar", "cbr"] : List String)) ∧
    (ArchiveType.from_extension ext = none ↔
      to_ascii_lowercase ext ∉
        (["zip", "cbz", "epub", "phz", "rar", "cbr", "7z", "cb7"] : List String)) ∧
    (∀ e, rust_extension path = some e → ArchiveType.from_extension e = none →
      open_archive_classify path = .error (.UnsupportedFormat e)) ∧
    (rust_extension path = some "" →
      open_archive_classify path = .error (.UnsupportedFormat "")) ∧
    (∀ t, open_archive_classify path = .ok t →
      ∃ e, rust_extension path = some e ∧ ArchiveType.from_extension e = some t) := by
  have hz := from_extension_table (to_ascii_lowercase ext)
  have hstep : ∀ e, rust_extension path = some e →
      ArchiveType.from_extension e = none →
      open_archive_classify path = .error (.UnsupportedFormat e) := by
    intro e he hn
    simp only [open_archive_classify, he, hn]
  refine ⟨hz.1, hz.2.1, hz.2.2, hstep, ?_, ?_⟩
  · intro he
    exact hstep "" he (by decide)
  · intro t ht
    rcases he : rust_extension path with _ | e
    · simp only [open_archive_classify, he] at ht
      exact Except.noConfusion ht
    · simp only [open_archive_classify, he] at ht
      rcases hf : ArchiveType.from_extension e with _ | u
      · rw [hf] at ht
        exact Except.noConfusion ht
      · rw [hf] at ht
        exact ⟨e, rfl, by rw [hf, Except.ok.inj ht]⟩

/-- C9 witness: `CBZ` (uppercase) maps to Zip, the path `comic.xyz` fails
with `UnsupportedFormat "xyz"`, and so does `comic.xyz/.`, whose trailing
`.` component Rust's path normalization skips. -/
theorem from_extension_spec_witness :
    ArchiveType.from_extension "CBZ" = some .Zip ∧
    open_archive_classify "comic.xyz" = .error (.UnsupportedFormat "xyz") ∧
    open_archive_classify "comic.xyz/." = .error (.UnsupportedFormat "xyz") := by
  refine ⟨(from_extension_spec "CBZ" "comic.xyz").1.mpr (by decide), ?_, ?_⟩
  · exact (from_extension_spec "CBZ" "comic.xyz").2.2.2.1 "xyz" (by decide) (by decide)
  · exact (from_extension_spec "CBZ" "comic.xyz/.").2.2.2.1 "xyz" (by decide) (by decide)

end CBX
